import Mathlib

/-!
# Kernel Chunker — verification of the segmentation core

Shallow embedding of `kernel_chunker.pyw`: the segmenter
(`chunk_single_kernel`), the deck parser / dispatch (`process_chunks`),
the sequential-copy controller (`copy_next_chunk`, `clear_all`), and the
theorems settling the specification claims about them.

JSON values are modelled by the inductive `Value`; decoded objects keep
their key/value pairs in insertion order, as Python dicts do, and lookups
are key-based (first match), matching `in` / `[...]` / `.get` on a dict
with unique keys.
-/

/-- A decoded JSON document.  Numbers are modelled as rationals (JSON
numerals are decimal; no arithmetic is ever performed on them by the
program, they are carried opaquely). -/
inductive Value where
  | null : Value
  | bool (b : Bool) : Value
  | num (q : Rat) : Value
  | str (s : String) : Value
  | arr (xs : List Value) : Value
  | obj (fields : List (String × Value)) : Value

/-- The contents of one decoded JSON object (a Python dict): key/value
pairs in insertion order, keys unique. -/
abbrev Record := List (String × Value)

/-- Key lookup in a dict: the value at the first matching key
(`kernel[key]` / the test `key in kernel`). -/
def lookup (r : Record) (k : String) : Option Value :=
  (r.find? (fun p => p.1 == k)).map (·.2)

/-- `kernel.get(key, default)`. -/
def getD (r : Record) (k : String) (d : Value) : Value :=
  (lookup r k).getD d

/-- The loop `for key in keys: if key in kernel: d[key] = kernel[key]`:
the sub-dict of `r` at the given keys, in the fixed order of `keys`. -/
def collect (keys : List String) (r : Record) : Record :=
  keys.filterMap (fun k => (lookup r k).map (fun v => (k, v)))

/-- `kernel.get('id', 'unknown')`, the `id` carried by every section. -/
def sectionId (r : Record) : Value :=
  getD r "id" (Value.str "unknown")

/-- The header rule's trigger/capture fields (rule 1). -/
def headerKeys : List String :=
  ["id", "title", "version", "extraction_date", "source", "deck_id",
   "kernel_count", "compression_ratio"]

/-- Rule 1 (header): identity info, nested under `data`.  Note the
section's `title` is `kernel.get('title', 'Header')`. -/
def headerSection (kernel : Record) : Option Record :=
  let header := collect headerKeys kernel
  if header.isEmpty then none
  else some [("section", Value.str "header"),
             ("title", getD kernel "title" (Value.str "Header")),
             ("id", sectionId kernel),
             ("data", Value.obj header)]

/-- Rule 2 (emotional_arc). -/
def arcSection (kernel : Record) : Option Record :=
  match lookup kernel "emotional_arc" with
  | some v => some [("section", Value.str "emotional_arc"),
                    ("title", Value.str "Emotional Arc"),
                    ("id", sectionId kernel),
                    ("emotional_arc", v)]
  | none => none

/-- Rule 3 (heat_signature). -/
def heatSection (kernel : Record) : Option Record :=
  match lookup kernel "heat_signature" with
  | some v => some [("section", Value.str "heat_signature"),
                    ("title", Value.str "Heat Signature"),
                    ("id", sectionId kernel),
                    ("heat_signature", v)]
  | none => none

/-- Rule 4 (language_motifs): `language_patterns` / `motifs`, spread at
the top level of the section. -/
def langMotifsSection (kernel : Record) : Option Record :=
  let lm := collect ["language_patterns", "motifs"] kernel
  if lm.isEmpty then none
  else some ([("section", Value.str "language_motifs"),
              ("title", Value.str "Language & Motifs"),
              ("id", sectionId kernel)] ++ lm)

/-- Rule 5 (physical_anchors). -/
def physSection (kernel : Record) : Option Record :=
  match lookup kernel "physical_anchors" with
  | some v => some [("section", Value.str "physical_anchors"),
                    ("title", Value.str "Physical Anchors"),
                    ("id", sectionId kernel),
                    ("physical_anchors", v)]
  | none => none

/-- Rule 6 (visual_description). -/
def visSection (kernel : Record) : Option Record :=
  match lookup kernel "visual_description" with
  | some v => some [("section", Value.str "visual_description"),
                    ("title", Value.str "Visual Description"),
                    ("id", sectionId kernel),
                    ("visual_description", v)]
  | none => none

/-- Rule 7 (dynamics): consent, power, aftercare, spread. -/
def dynSection (kernel : Record) : Option Record :=
  let dynamics := collect ["consent_pattern", "power_dynamic", "aftercare"] kernel
  if dynamics.isEmpty then none
  else some ([("section", Value.str "dynamics"),
              ("title", Value.str "Relationship Dynamics"),
              ("id", sectionId kernel)] ++ dynamics)

/-- Rule 8 (core_truth): boundaries and core truth, spread. -/
def coreSection (kernel : Record) : Option Record :=
  let core := collect ["pattern_boundaries", "what_makes_it_work",
                       "core_truth", "why_it_matters"] kernel
  if core.isEmpty then none
  else some ([("section", Value.str "core_truth"),
              ("title", Value.str "Core Truth & Boundaries"),
              ("id", sectionId kernel)] ++ core)

/-- Rule 9 (cubic_attractor). -/
def cubicSection (kernel : Record) : Option Record :=
  match lookup kernel "cubic_attractor" with
  | some v => some [("section", Value.str "cubic_attractor"),
                    ("title", Value.str "Cubic Attractor (Identity)"),
                    ("id", sectionId kernel),
                    ("cubic_attractor", v)]
  | none => none

/-- Rule 10 (export): export and closing fields, spread. -/
def exportSection (kernel : Record) : Option Record :=
  let export_ := collect ["replication_notes", "export_notes", "closing_image",
                          "heat_at_close", "sigil"] kernel
  if export_.isEmpty then none
  else some ([("section", Value.str "export"),
              ("title", Value.str "Export Notes"),
              ("id", sectionId kernel)] ++ export_)

/-- The ten extraction rules of `chunk_single_kernel`, applied in the
source's fixed order; each rule appends its section only when triggered,
so the list collects the produced sections in rule order. -/
def chunk_single_kernel_sections (kernel : Record) : List Record :=
  [headerSection kernel, arcSection kernel, heatSection kernel,
   langMotifsSection kernel, physSection kernel, visSection kernel,
   dynSection kernel, coreSection kernel, cubicSection kernel,
   exportSection kernel].filterMap id

/-- `chunk_single_kernel`: the produced sections when more than one rule
fired, else the original record as the sole chunk
(`return sections if len(sections) > 1 else [kernel]`). -/
def chunk_single_kernel (kernel : Record) : List Record :=
  let sections := chunk_single_kernel_sections kernel
  if sections.length > 1 then sections else [kernel]

/-- The fixed vocabulary of section tags, in rule order. -/
def ruleTags : List String :=
  ["header", "emotional_arc", "heat_signature", "language_motifs",
   "physical_anchors", "visual_description", "dynamics", "core_truth",
   "cubic_attractor", "export"]

/-- The trigger-field set of the rule with the given tag. -/
def ruleFields : String → List String
  | "header" => headerKeys
  | "emotional_arc" => ["emotional_arc"]
  | "heat_signature" => ["heat_signature"]
  | "language_motifs" => ["language_patterns", "motifs"]
  | "physical_anchors" => ["physical_anchors"]
  | "visual_description" => ["visual_description"]
  | "dynamics" => ["consent_pattern", "power_dynamic", "aftercare"]
  | "core_truth" => ["pattern_boundaries", "what_makes_it_work",
                     "core_truth", "why_it_matters"]
  | "cubic_attractor" => ["cubic_attractor"]
  | "export" => ["replication_notes", "export_notes", "closing_image",
                 "heat_at_close", "sigil"]
  | _ => []

/-! ## The controller state and the parse / copy / clear operations

The chunk-relevant state of the `KernelChunker` widget is `self.chunks`
(the chunk list) together with `self.current_chunk_index` (the cursor, a
Python int, hence modelled as `Int`).  Window chrome, cards and labels are
presentation and outside the model.  Operations that can raise (list
indexing with an out-of-range cursor, iterating a non-list `kernels`
value) return `none`. -/

/-- The chunk-relevant state of the widget. -/
structure ChunkerState where
  chunks : List Value
  cursor : Int

/-- Python truthiness of a decoded JSON value (`if not kernels`). -/
def pyTruthy : Value → Bool
  | .null => false
  | .bool b => b
  | .num q => q ≠ 0
  | .str s => !s.isEmpty
  | .arr xs => !xs.isEmpty
  | .obj fs => !fs.isEmpty

/-- Python list indexing `xs[i]` with negative-index wrap-around;
`none` is an `IndexError`. -/
def pyListGet (xs : List Value) (i : Int) : Option Value :=
  if 0 ≤ i then xs.get? i.toNat
  else if 0 ≤ (xs.length : Int) + i then xs.get? ((xs.length : Int) + i).toNat
  else none

/-- The raw text handed to the parse action, abstracted to the three
cases the code distinguishes: blank after `strip()`, text on which
`json.loads` raises, and text that decodes to a value. -/
inductive RawInput where
  | blank : RawInput
  | malformed : RawInput
  | decoded (v : Value) : RawInput

/-- The status-label outcome of a parse action. -/
inductive Status where
  /-- "No input - paste or drop a kernel deck" -/
  | noInput : Status
  /-- "Invalid JSON: ..." (decode error) -/
  | invalidJson : Status
  /-- "No kernels found in JSON" (mapping of unrecognized shape) -/
  | noKernelsInJson : Status
  /-- "Unexpected JSON format" (decoded scalar) -/
  | unexpectedFormat : Status
  /-- "No kernels found" (zero records) -/
  | noKernels : Status
  /-- success: n chunks, sectioned or not -/
  | ok (n : Nat) (sectioned : Bool) : Status
deriving DecidableEq

/-- Whether a status reports a parse failure. -/
def Status.isFailure : Status → Bool
  | .ok _ _ => false
  | _ => true

/-- The dispatch of `process_chunks` on a decoded value: extract the
record list (dict with `kernels`, single segmentable kernel, or bare
list), reject other shapes and empty decks, and on success replace the
chunk state.  The state assignments (`self.chunks = kernels`,
`self.current_chunk_index = 0`) complete before any card is built, so the
state transition is exact; a truthy non-list `kernels` value puts a
non-list object in `self.chunks`, outside this list-shaped model, and is
returned as `none`. -/
def processDecoded (v : Value) (st : ChunkerState) :
    Option (ChunkerState × Status) :=
  match v with
  | .obj fields =>
    match lookup fields "kernels" with
    | some kv =>
      if pyTruthy kv then
        match kv with
        | .arr xs => some (⟨xs, 0⟩, .ok xs.length false)
        | _ => none
      else some (st, .noKernels)
    | none =>
      if (lookup fields "id").isSome
          ∧ ((lookup fields "emotional_arc").isSome
             ∨ (lookup fields "heat_signature").isSome
             ∨ (lookup fields "cubic_attractor").isSome) then
        let ks := chunk_single_kernel fields
        if ks.isEmpty then some (st, .noKernels)
        else some (⟨ks.map Value.obj, 0⟩, .ok ks.length (ks.length > 1))
      else some (st, .noKernelsInJson)
  | .arr xs =>
    if xs.isEmpty then some (st, .noKernels)
    else some (⟨xs, 0⟩, .ok xs.length false)
  | _ => some (st, .unexpectedFormat)

/-- `process_chunks`: the parse action on the raw input text. -/
def process_chunks (inp : RawInput) (st : ChunkerState) :
    Option (ChunkerState × Status) :=
  match inp with
  | .blank => some (st, .noInput)
  | .malformed => some (st, .invalidJson)
  | .decoded v => processDecoded v st

/-- `clear_all`: discard the chunks and reset the cursor. -/
def clear_all (_st : ChunkerState) : ChunkerState :=
  ⟨[], 0⟩

/-- `copy_next_chunk`: the advance action of the sequential-copy
controller.  Returns the new state and the value written to the
clipboard (`none` = nothing copied); an `IndexError` on a negative
out-of-range cursor is `none` overall. -/
def copy_next_chunk (st : ChunkerState) :
    Option (ChunkerState × Option Value) :=
  if (st.chunks.length : Int) ≤ st.cursor then
    some (⟨st.chunks, 0⟩, none)
  else if st.chunks.isEmpty then
    some (st, none)
  else
    match pyListGet st.chunks st.cursor with
    | some v => some (⟨st.chunks, st.cursor + 1⟩, some v)
    | none => none

/-- The cursor-bounds invariant of §4.3: `cursor ∈ [0, N]`. -/
def InvState (st : ChunkerState) : Prop :=
  0 ≤ st.cursor ∧ st.cursor ≤ (st.chunks.length : Int)

/-- The `title` value `chunk_single_kernel` writes into the section with
the given tag: a fixed per-tag label for every rule except `header`,
whose title is `kernel.get('title', 'Header')`. -/
def tagTitle (r : Record) : String → Value
  | "header" => getD r "title" (Value.str "Header")
  | "emotional_arc" => Value.str "Emotional Arc"
  | "heat_signature" => Value.str "Heat Signature"
  | "language_motifs" => Value.str "Language & Motifs"
  | "physical_anchors" => Value.str "Physical Anchors"
  | "visual_description" => Value.str "Visual Description"
  | "dynamics" => Value.str "Relationship Dynamics"
  | "core_truth" => Value.str "Core Truth & Boundaries"
  | "cubic_attractor" => Value.str "Cubic Attractor (Identity)"
  | "export" => Value.str "Export Notes"
  | _ => Value.null

/-! ## State-threaded segmenter

`chunk_single_kernel` receives the decoded record as a Python object it
could mutate.  To state that it does not, the segmenter is re-embedded
with the record's dict as explicit state, threaded through every one of
the operations the source performs on `kernel` (`in`, `[...]`, `.get` —
all reads; a dict write would show up here as a state update).  The frame
theorem then says the final state equals the initial one and the result
refines the pure `chunk_single_kernel`. -/

/-- `key in kernel` against the current dict state. -/
def memS (d : Record) (k : String) : Record × Bool :=
  (d, (lookup d k).isSome)

/-- `kernel[key]` against the current dict state (guarded by `in` at
every use site in the source, so the absent case never arises). -/
def itemS (d : Record) (k : String) : Record × Value :=
  (d, (lookup d k).getD Value.null)

/-- `kernel.get(key, default)` against the current dict state. -/
def getS (d : Record) (k : String) (v0 : Value) : Record × Value :=
  (d, getD d k v0)

/-- The `for key in keys: if key in kernel: d[key] = kernel[key]` loop,
threading the record state through each `in` test and item read. -/
def collectS (keys : List String) (d : Record) : Record × Record :=
  match keys with
  | [] => (d, [])
  | k :: ks =>
    let (d1, present) := memS d k
    if present then
      let (d2, v) := itemS d1 k
      let (d3, rest) := collectS ks d2
      (d3, (k, v) :: rest)
    else
      let (d2, rest) := collectS ks d1
      (d2, rest)

/-- Rule 1 with the record state threaded. -/
def headerSectionS (d : Record) : Record × Option Record :=
  let (d1, header) := collectS headerKeys d
  if header.isEmpty then (d1, none)
  else
    let (d2, t) := getS d1 "title" (Value.str "Header")
    let (d3, i) := getS d2 "id" (Value.str "unknown")
    (d3, some [("section", Value.str "header"), ("title", t),
               ("id", i), ("data", Value.obj header)])

/-- A single-field rule (rules 2, 3, 5, 6, 9) with the record state
threaded: the `in` test, then the `.get('id', ...)` and the item read
inside the section literal. -/
def singleFieldSectionS (tag title field : String) (d : Record) :
    Record × Option Record :=
  let (d1, present) := memS d field
  if present then
    let (d2, i) := getS d1 "id" (Value.str "unknown")
    let (d3, v) := itemS d2 field
    (d3, some [("section", Value.str tag), ("title", Value.str title),
               ("id", i), (field, v)])
  else (d1, none)

/-- A spread rule (rules 4, 7, 8, 10) with the record state threaded:
the collecting loop, then the `.get('id', ...)` in the section literal. -/
def spreadSectionS (tag title : String) (keys : List String) (d : Record) :
    Record × Option Record :=
  let (d1, sub) := collectS keys d
  if sub.isEmpty then (d1, none)
  else
    let (d2, i) := getS d1 "id" (Value.str "unknown")
    (d2, some ([("section", Value.str tag), ("title", Value.str title),
                ("id", i)] ++ sub))

/-- `chunk_single_kernel` with the record object as explicit state: the
ten rules in source order, then the fallback, which returns the record
object itself (in its final state) as the sole chunk. -/
def chunk_single_kernel_state (kernel : Record) : Record × List Record :=
  let p1 := headerSectionS kernel
  let p2 := singleFieldSectionS "emotional_arc" "Emotional Arc" "emotional_arc" p1.1
  let p3 := singleFieldSectionS "heat_signature" "Heat Signature" "heat_signature" p2.1
  let p4 := spreadSectionS "language_motifs" "Language & Motifs"
              ["language_patterns", "motifs"] p3.1
  let p5 := singleFieldSectionS "physical_anchors" "Physical Anchors" "physical_anchors" p4.1
  let p6 := singleFieldSectionS "visual_description" "Visual Description" "visual_description" p5.1
  let p7 := spreadSectionS "dynamics" "Relationship Dynamics"
              ["consent_pattern", "power_dynamic", "aftercare"] p6.1
  let p8 := spreadSectionS "core_truth" "Core Truth & Boundaries"
              ["pattern_boundaries", "what_makes_it_work", "core_truth", "why_it_matters"] p7.1
  let p9 := singleFieldSectionS "cubic_attractor" "Cubic Attractor (Identity)" "cubic_attractor" p8.1
  let p10 := spreadSectionS "export" "Export Notes"
               ["replication_notes", "export_notes", "closing_image", "heat_at_close", "sigil"] p9.1
  let sections := [p1.2, p2.2, p3.2, p4.2, p5.2, p6.2, p7.2, p8.2, p9.2, p10.2].filterMap id
  if sections.length > 1 then (p10.1, sections) else (p10.1, [p10.1])

/-! ## Concrete records used by scenario theorems, witnesses and
counterexamples -/

/-- The §8 scenario record `{"id":"k1","heat_signature":{"trust":0.5}}`. -/
def scenarioHeat : Record :=
  [("id", Value.str "k1"),
   ("heat_signature", Value.obj [("trust", Value.num (1/2))])]

/-- The §8 scenario record `{"id":"k1","title":"Solo"}`. -/
def scenarioSolo : Record :=
  [("id", Value.str "k1"), ("title", Value.str "Solo")]

/-- A segmentable record whose `title` is "Arrival". -/
def titledA : Record :=
  [("id", Value.str "a"), ("title", Value.str "Arrival"), ("emotional_arc", Value.null)]

/-- A segmentable record identical to `titledA` except that its `title`
is "Departure". -/
def titledB : Record :=
  [("id", Value.str "a"), ("title", Value.str "Departure"), ("emotional_arc", Value.null)]

/-! ## Helper lemmas -/

theorem lookup_cons (k' : String) (v : Value) (r : Record) (k : String) :
    lookup ((k', v) :: r) k = if k' = k then some v else lookup r k := by
  unfold lookup
  rw [List.find?_cons]
  rcases h : k' == k with _ | _
  · simp only [beq_eq_false_iff_ne] at h
    simp [h]
  · simp only [beq_iff_eq] at h
    simp [h]

theorem collect_eq_nil (keys : List String) (r : Record)
    (h : ∀ k ∈ keys, lookup r k = none) : collect keys r = [] := by
  induction keys with
  | nil => rfl
  | cons k ks ih =>
    rw [collect, List.filterMap_cons, h k (List.mem_cons_self _ _)]
    exact ih (fun k' hk' => h k' (List.mem_cons_of_mem _ hk'))

theorem collect_congr {r1 r2 : Record} (h : ∀ k, lookup r1 k = lookup r2 k)
    (keys : List String) : collect keys r1 = collect keys r2 := by
  unfold collect
  induction keys with
  | nil => rfl
  | cons k ks ih => rw [List.filterMap_cons, List.filterMap_cons, h k, ih]

theorem getD_congr {r1 r2 : Record} (h : ∀ k, lookup r1 k = lookup r2 k)
    (k : String) (d : Value) : getD r1 k d = getD r2 k d := by
  unfold getD
  rw [h k]

theorem sectionId_congr {r1 r2 : Record} (h : ∀ k, lookup r1 k = lookup r2 k) :
    sectionId r1 = sectionId r2 :=
  getD_congr h "id" _

theorem mem_sections_iff (r : Record) (s : Record) :
    s ∈ chunk_single_kernel_sections r ↔
      headerSection r = some s ∨ arcSection r = some s ∨ heatSection r = some s ∨
      langMotifsSection r = some s ∨ physSection r = some s ∨ visSection r = some s ∨
      dynSection r = some s ∨ coreSection r = some s ∨ cubicSection r = some s ∨
      exportSection r = some s := by
  simp only [chunk_single_kernel_sections, List.mem_filterMap, List.mem_cons,
    List.mem_singleton, id_eq, List.not_mem_nil, or_false]
  constructor
  · rintro ⟨o, ho, hid⟩
    rcases ho with rfl | rfl | rfl | rfl | rfl | rfl | rfl | rfl | rfl | rfl <;> tauto
  · rintro (h | h | h | h | h | h | h | h | h | h) <;> exact ⟨some s, by simp [h], rfl⟩

theorem headerSection_shape {r s : Record} (h : headerSection r = some s) :
    lookup s "section" = some (Value.str "header") ∧
    lookup s "title" = some (getD r "title" (Value.str "Header")) ∧
    lookup s "id" = some (sectionId r) := by
  unfold headerSection at h
  simp only [] at h
  split at h
  · exact Option.noConfusion h
  · injection h with h
    subst h
    exact ⟨by simp [lookup_cons], by simp [lookup_cons], by simp [lookup_cons]⟩

theorem arcSection_shape {r s : Record} (h : arcSection r = some s) :
    lookup s "section" = some (Value.str "emotional_arc") ∧
    lookup s "title" = some (Value.str "Emotional Arc") ∧
    lookup s "id" = some (sectionId r) := by
  unfold arcSection at h
  split at h
  · injection h with h
    subst h
    exact ⟨by simp [lookup_cons], by simp [lookup_cons], by simp [lookup_cons]⟩
  · exact Option.noConfusion h

theorem heatSection_shape {r s : Record} (h : heatSection r = some s) :
    lookup s "section" = some (Value.str "heat_signature") ∧
    lookup s "title" = some (Value.str "Heat Signature") ∧
    lookup s "id" = some (sectionId r) := by
  unfold heatSection at h
  split at h
  · injection h with h
    subst h
    exact ⟨by simp [lookup_cons], by simp [lookup_cons], by simp [lookup_cons]⟩
  · exact Option.noConfusion h

theorem langMotifsSection_shape {r s : Record} (h : langMotifsSection r = some s) :
    lookup s "section" = some (Value.str "language_motifs") ∧
    lookup s "title" = some (Value.str "Language & Motifs") ∧
    lookup s "id" = some (sectionId r) := by
  unfold langMotifsSection at h
  simp only [] at h
  split at h
  · exact Option.noConfusion h
  · injection h with h
    subst h
    exact ⟨by simp [lookup_cons], by simp [lookup_cons], by simp [lookup_cons]⟩

theorem physSection_shape {r s : Record} (h : physSection r = some s) :
    lookup s "section" = some (Value.str "physical_anchors") ∧
    lookup s "title" = some (Value.str "Physical Anchors") ∧
    lookup s "id" = some (sectionId r) := by
  unfold physSection at h
  split at h
  · injection h with h
    subst h
    exact ⟨by simp [lookup_cons], by simp [lookup_cons], by simp [lookup_cons]⟩
  · exact Option.noConfusion h

theorem visSection_shape {r s : Record} (h : visSection r = some s) :
    lookup s "section" = some (Value.str "visual_description") ∧
    lookup s "title" = some (Value.str "Visual Description") ∧
    lookup s "id" = some (sectionId r) := by
  unfold visSection at h
  split at h
  · injection h with h
    subst h
    exact ⟨by simp [lookup_cons], by simp [lookup_cons], by simp [lookup_cons]⟩
  · exact Option.noConfusion h

theorem dynSection_shape {r s : Record} (h : dynSection r = some s) :
    lookup s "section" = some (Value.str "dynamics") ∧
    lookup s "title" = some (Value.str "Relationship Dynamics") ∧
    lookup s "id" = some (sectionId r) := by
  unfold dynSection at h
  simp only [] at h
  split at h
  · exact Option.noConfusion h
  · injection h with h
    subst h
    exact ⟨by simp [lookup_cons], by simp [lookup_cons], by simp [lookup_cons]⟩

theorem coreSection_shape {r s : Record} (h : coreSection r = some s) :
    lookup s "section" = some (Value.str "core_truth") ∧
    lookup s "title" = some (Value.str "Core Truth & Boundaries") ∧
    lookup s "id" = some (sectionId r) := by
  unfold coreSection at h
  simp only [] at h
  split at h
  · exact Option.noConfusion h
  · injection h with h
    subst h
    exact ⟨by simp [lookup_cons], by simp [lookup_cons], by simp [lookup_cons]⟩

theorem cubicSection_shape {r s : Record} (h : cubicSection r = some s) :
    lookup s "section" = some (Value.str "cubic_attractor") ∧
    lookup s "title" = some (Value.str "Cubic Attractor (Identity)") ∧
    lookup s "id" = some (sectionId r) := by
  unfold cubicSection at h
  split at h
  · injection h with h
    subst h
    exact ⟨by simp [lookup_cons], by simp [lookup_cons], by simp [lookup_cons]⟩
  · exact Option.noConfusion h

theorem exportSection_shape {r s : Record} (h : exportSection r = some s) :
    lookup s "section" = some (Value.str "export") ∧
    lookup s "title" = some (Value.str "Export Notes") ∧
    lookup s "id" = some (sectionId r) := by
  unfold exportSection at h
  simp only [] at h
  split at h
  · exact Option.noConfusion h
  · injection h with h
    subst h
    exact ⟨by simp [lookup_cons], by simp [lookup_cons], by simp [lookup_cons]⟩

theorem headerSection_eq_none {r : Record}
    (h : ∀ k ∈ headerKeys, lookup r k = none) : headerSection r = none := by
  unfold headerSection
  rw [collect_eq_nil _ _ h]
  rfl

theorem arcSection_eq_none {r : Record}
    (h : lookup r "emotional_arc" = none) : arcSection r = none := by
  unfold arcSection
  rw [h]

theorem heatSection_eq_none {r : Record}
    (h : lookup r "heat_signature" = none) : heatSection r = none := by
  unfold heatSection
  rw [h]

theorem langMotifsSection_eq_none {r : Record}
    (h : ∀ k ∈ ["language_patterns", "motifs"], lookup r k = none) :
    langMotifsSection r = none := by
  unfold langMotifsSection
  rw [collect_eq_nil _ _ h]
  rfl

theorem physSection_eq_none {r : Record}
    (h : lookup r "physical_anchors" = none) : physSection r = none := by
  unfold physSection
  rw [h]

theorem visSection_eq_none {r : Record}
    (h : lookup r "visual_description" = none) : visSection r = none := by
  unfold visSection
  rw [h]

theorem dynSection_eq_none {r : Record}
    (h : ∀ k ∈ ["consent_pattern", "power_dynamic", "aftercare"], lookup r k = none) :
    dynSection r = none := by
  unfold dynSection
  rw [collect_eq_nil _ _ h]
  rfl

theorem coreSection_eq_none {r : Record}
    (h : ∀ k ∈ ["pattern_boundaries", "what_makes_it_work", "core_truth",
                "why_it_matters"], lookup r k = none) :
    coreSection r = none := by
  unfold coreSection
  rw [collect_eq_nil _ _ h]
  rfl

theorem cubicSection_eq_none {r : Record}
    (h : lookup r "cubic_attractor" = none) : cubicSection r = none := by
  unfold cubicSection
  rw [h]

theorem exportSection_eq_none {r : Record}
    (h : ∀ k ∈ ["replication_notes", "export_notes", "closing_image",
                "heat_at_close", "sigil"], lookup r k = none) :
    exportSection r = none := by
  unfold exportSection
  rw [collect_eq_nil _ _ h]
  rfl

theorem headerSection_congr {r1 r2 : Record} (h : ∀ k, lookup r1 k = lookup r2 k) :
    headerSection r1 = headerSection r2 := by
  simp only [headerSection, collect_congr h, getD_congr h, sectionId_congr h]

theorem arcSection_congr {r1 r2 : Record} (h : ∀ k, lookup r1 k = lookup r2 k) :
    arcSection r1 = arcSection r2 := by
  simp only [arcSection, h, sectionId_congr h]

theorem heatSection_congr {r1 r2 : Record} (h : ∀ k, lookup r1 k = lookup r2 k) :
    heatSection r1 = heatSection r2 := by
  simp only [heatSection, h, sectionId_congr h]

theorem langMotifsSection_congr {r1 r2 : Record} (h : ∀ k, lookup r1 k = lookup r2 k) :
    langMotifsSection r1 = langMotifsSection r2 := by
  simp only [langMotifsSection, collect_congr h, sectionId_congr h]

theorem physSection_congr {r1 r2 : Record} (h : ∀ k, lookup r1 k = lookup r2 k) :
    physSection r1 = physSection r2 := by
  simp only [physSection, h, sectionId_congr h]

theorem visSection_congr {r1 r2 : Record} (h : ∀ k, lookup r1 k = lookup r2 k) :
    visSection r1 = visSection r2 := by
  simp only [visSection, h, sectionId_congr h]

theorem dynSection_congr {r1 r2 : Record} (h : ∀ k, lookup r1 k = lookup r2 k) :
    dynSection r1 = dynSection r2 := by
  simp only [dynSection, collect_congr h, sectionId_congr h]

theorem coreSection_congr {r1 r2 : Record} (h : ∀ k, lookup r1 k = lookup r2 k) :
    coreSection r1 = coreSection r2 := by
  simp only [coreSection, collect_congr h, sectionId_congr h]

theorem cubicSection_congr {r1 r2 : Record} (h : ∀ k, lookup r1 k = lookup r2 k) :
    cubicSection r1 = cubicSection r2 := by
  simp only [cubicSection, h, sectionId_congr h]

theorem exportSection_congr {r1 r2 : Record} (h : ∀ k, lookup r1 k = lookup r2 k) :
    exportSection r1 = exportSection r2 := by
  simp only [exportSection, collect_congr h, sectionId_congr h]

theorem sections_congr {r1 r2 : Record} (h : ∀ k, lookup r1 k = lookup r2 k) :
    chunk_single_kernel_sections r1 = chunk_single_kernel_sections r2 := by
  unfold chunk_single_kernel_sections
  rw [headerSection_congr h, arcSection_congr h, heatSection_congr h,
      langMotifsSection_congr h, physSection_congr h, visSection_congr h,
      dynSection_congr h, coreSection_congr h, cubicSection_congr h,
      exportSection_congr h]

theorem filterMap_tag_sublist :
    ∀ l : List (Option Record × String),
      (∀ p ∈ l, ∀ s, p.1 = some s → lookup s "section" = some (Value.str p.2)) →
      (((l.map Prod.fst).filterMap id).map (fun s => lookup s "section")).Sublist
        (l.map (fun p => some (Value.str p.2)))
  | [], _ => by simp
  | (o, t) :: ps, h => by
    have hps := filterMap_tag_sublist ps (fun p hp => h p (List.mem_cons_of_mem _ hp))
    cases o with
    | none => simpa using hps.cons _
    | some s =>
      have htag := h (some s, t) (List.mem_cons_self _ _) s rfl
      simpa [htag] using hps.cons₂ (some (Value.str t))

theorem sections_tags_sublist (r : Record) :
    ((chunk_single_kernel_sections r).map (fun s => lookup s "section")).Sublist
      (ruleTags.map (fun t => some (Value.str t))) := by
  have h := filterMap_tag_sublist
    [(headerSection r, "header"), (arcSection r, "emotional_arc"),
     (heatSection r, "heat_signature"), (langMotifsSection r, "language_motifs"),
     (physSection r, "physical_anchors"), (visSection r, "visual_description"),
     (dynSection r, "dynamics"), (coreSection r, "core_truth"),
     (cubicSection r, "cubic_attractor"), (exportSection r, "export")] ?_
  · simpa [chunk_single_kernel_sections, ruleTags] using h
  · rintro p hp s hps
    simp only [List.mem_cons, List.not_mem_nil, or_false] at hp
    rcases hp with rfl | rfl | rfl | rfl | rfl | rfl | rfl | rfl | rfl | rfl
    · exact (headerSection_shape hps).1
    · exact (arcSection_shape hps).1
    · exact (heatSection_shape hps).1
    · exact (langMotifsSection_shape hps).1
    · exact (physSection_shape hps).1
    · exact (visSection_shape hps).1
    · exact (dynSection_shape hps).1
    · exact (coreSection_shape hps).1
    · exact (cubicSection_shape hps).1
    · exact (exportSection_shape hps).1

theorem mem_sections_shape {r s : Record} (hs : s ∈ chunk_single_kernel_sections r) :
    ∃ t, t ∈ ruleTags ∧ lookup s "section" = some (Value.str t) ∧
      lookup s "title" = some (tagTitle r t) ∧ lookup s "id" = some (sectionId r) := by
  rw [mem_sections_iff] at hs
  rcases hs with h | h | h | h | h | h | h | h | h | h
  · obtain ⟨h1, h2, h3⟩ := headerSection_shape h
    exact ⟨"header", by simp [ruleTags], h1, h2, h3⟩
  · obtain ⟨h1, h2, h3⟩ := arcSection_shape h
    exact ⟨"emotional_arc", by simp [ruleTags], h1, h2, h3⟩
  · obtain ⟨h1, h2, h3⟩ := heatSection_shape h
    exact ⟨"heat_signature", by simp [ruleTags], h1, h2, h3⟩
  · obtain ⟨h1, h2, h3⟩ := langMotifsSection_shape h
    exact ⟨"language_motifs", by simp [ruleTags], h1, h2, h3⟩
  · obtain ⟨h1, h2, h3⟩ := physSection_shape h
    exact ⟨"physical_anchors", by simp [ruleTags], h1, h2, h3⟩
  · obtain ⟨h1, h2, h3⟩ := visSection_shape h
    exact ⟨"visual_description", by simp [ruleTags], h1, h2, h3⟩
  · obtain ⟨h1, h2, h3⟩ := dynSection_shape h
    exact ⟨"dynamics", by simp [ruleTags], h1, h2, h3⟩
  · obtain ⟨h1, h2, h3⟩ := coreSection_shape h
    exact ⟨"core_truth", by simp [ruleTags], h1, h2, h3⟩
  · obtain ⟨h1, h2, h3⟩ := cubicSection_shape h
    exact ⟨"cubic_attractor", by simp [ruleTags], h1, h2, h3⟩
  · obtain ⟨h1, h2, h3⟩ := exportSection_shape h
    exact ⟨"export", by simp [ruleTags], h1, h2, h3⟩

theorem rule_absent_tag_not_present {r : Record} {t : String} (ht : t ∈ ruleTags)
    (habs : ∀ k ∈ ruleFields t, lookup r k = none) :
    ∀ s ∈ chunk_single_kernel_sections r, lookup s "section" ≠ some (Value.str t) := by
  intro s hs hc
  rw [mem_sections_iff] at hs
  simp only [ruleTags, List.mem_cons, List.not_mem_nil, or_false] at ht
  rcases ht with rfl | rfl | rfl | rfl | rfl | rfl | rfl | rfl | rfl | rfl
  · have hnone := headerSection_eq_none (r := r) habs
    rcases hs with h | h | h | h | h | h | h | h | h | h
    · rw [hnone] at h
      exact Option.noConfusion h
    · rw [(arcSection_shape h).1] at hc
      simp at hc
    · rw [(heatSection_shape h).1] at hc
      simp at hc
    · rw [(langMotifsSection_shape h).1] at hc
      simp at hc
    · rw [(physSection_shape h).1] at hc
      simp at hc
    · rw [(visSection_shape h).1] at hc
      simp at hc
    · rw [(dynSection_shape h).1] at hc
      simp at hc
    · rw [(coreSection_shape h).1] at hc
      simp at hc
    · rw [(cubicSection_shape h).1] at hc
      simp at hc
    · rw [(exportSection_shape h).1] at hc
      simp at hc
  · have hnone := arcSection_eq_none (r := r) (habs "emotional_arc" (by simp [ruleFields]))
    rcases hs with h | h | h | h | h | h | h | h | h | h
    · rw [(headerSection_shape h).1] at hc
      simp at hc
    · rw [hnone] at h
      exact Option.noConfusion h
    · rw [(heatSection_shape h).1] at hc
      simp at hc
    · rw [(langMotifsSection_shape h).1] at hc
      simp at hc
    · rw [(physSection_shape h).1] at hc
      simp at hc
    · rw [(visSection_shape h).1] at hc
      simp at hc
    · rw [(dynSection_shape h).1] at hc
      simp at hc
    · rw [(coreSection_shape h).1] at hc
      simp at hc
    · rw [(cubicSection_shape h).1] at hc
      simp at hc
    · rw [(exportSection_shape h).1] at hc
      simp at hc
  · have hnone := heatSection_eq_none (r := r) (habs "heat_signature" (by simp [ruleFields]))
    rcases hs with h | h | h | h | h | h | h | h | h | h
    · rw [(headerSection_shape h).1] at hc
      simp at hc
    · rw [(arcSection_shape h).1] at hc
      simp at hc
    · rw [hnone] at h
      exact Option.noConfusion h
    · rw [(langMotifsSection_shape h).1] at hc
      simp at hc
    · rw [(physSection_shape h).1] at hc
      simp at hc
    · rw [(visSection_shape h).1] at hc
      simp at hc
    · rw [(dynSection_shape h).1] at hc
      simp at hc
    · rw [(coreSection_shape h).1] at hc
      simp at hc
    · rw [(cubicSection_shape h).1] at hc
      simp at hc
    · rw [(exportSection_shape h).1] at hc
      simp at hc
  · have hnone := langMotifsSection_eq_none (r := r) (by simpa [ruleFields] using habs)
    rcases hs with h | h | h | h | h | h | h | h | h | h
    · rw [(headerSection_shape h).1] at hc
      simp at hc
    · rw [(arcSection_shape h).1] at hc
      simp at hc
    · rw [(heatSection_shape h).1] at hc
      simp at hc
    · rw [hnone] at h
      exact Option.noConfusion h
    · rw [(physSection_shape h).1] at hc
      simp at hc
    · rw [(visSection_shape h).1] at hc
      simp at hc
    · rw [(dynSection_shape h).1] at hc
      simp at hc
    · rw [(coreSection_shape h).1] at hc
      simp at hc
    · rw [(cubicSection_shape h).1] at hc
      simp at hc
    · rw [(exportSection_shape h).1] at hc
      simp at hc
  · have hnone := physSection_eq_none (r := r) (habs "physical_anchors" (by simp [ruleFields]))
    rcases hs with h | h | h | h | h | h | h | h | h | h
    · rw [(headerSection_shape h).1] at hc
      simp at hc
    · rw [(arcSection_shape h).1] at hc
      simp at hc
    · rw [(heatSection_shape h).1] at hc
      simp at hc
    · rw [(langMotifsSection_shape h).1] at hc
      simp at hc
    · rw [hnone] at h
      exact Option.noConfusion h
    · rw [(visSection_shape h).1] at hc
      simp at hc
    · rw [(dynSection_shape h).1] at hc
      simp at hc
    · rw [(coreSection_shape h).1] at hc
      simp at hc
    · rw [(cubicSection_shape h).1] at hc
      simp at hc
    · rw [(exportSection_shape h).1] at hc
      simp at hc
  · have hnone := visSection_eq_none (r := r) (habs "visual_description" (by simp [ruleFields]))
    rcases hs with h | h | h | h | h | h | h | h | h | h
    · rw [(headerSection_shape h).1] at hc
      simp at hc
    · rw [(arcSection_shape h).1] at hc
      simp at hc
    · rw [(heatSection_shape h).1] at hc
      simp at hc
    · rw [(langMotifsSection_shape h).1] at hc
      simp at hc
    · rw [(physSection_shape h).1] at hc
      simp at hc
    · rw [hnone] at h
      exact Option.noConfusion h
    · rw [(dynSection_shape h).1] at hc
      simp at hc
    · rw [(coreSection_shape h).1] at hc
      simp at hc
    · rw [(cubicSection_shape h).1] at hc
      simp at hc
    · rw [(exportSection_shape h).1] at hc
      simp at hc
  · have hnone := dynSection_eq_none (r := r) (by simpa [ruleFields] using habs)
    rcases hs with h | h | h | h | h | h | h | h | h | h
    · rw [(headerSection_shape h).1] at hc
      simp at hc
    · rw [(arcSection_shape h).1] at hc
      simp at hc
    · rw [(heatSection_shape h).1] at hc
      simp at hc
    · rw [(langMotifsSection_shape h).1] at hc
      simp at hc
    · rw [(physSection_shape h).1] at hc
      simp at hc
    · rw [(visSection_shape h).1] at hc
      simp at hc
    · rw [hnone] at h
      exact Option.noConfusion h
    · rw [(coreSection_shape h).1] at hc
      simp at hc
    · rw [(cubicSection_shape h).1] at hc
      simp at hc
    · rw [(exportSection_shape h).1] at hc
      simp at hc
  · have hnone := coreSection_eq_none (r := r) (by simpa [ruleFields] using habs)
    rcases hs with h | h | h | h | h | h | h | h | h | h
    · rw [(headerSection_shape h).1] at hc
      simp at hc
    · rw [(arcSection_shape h).1] at hc
      simp at hc
    · rw [(heatSection_shape h).1] at hc
      simp at hc
    · rw [(langMotifsSection_shape h).1] at hc
      simp at hc
    · rw [(physSection_shape h).1] at hc
      simp at hc
    · rw [(visSection_shape h).1] at hc
      simp at hc
    · rw [(dynSection_shape h).1] at hc
      simp at hc
    · rw [hnone] at h
      exact Option.noConfusion h
    · rw [(cubicSection_shape h).1] at hc
      simp at hc
    · rw [(exportSection_shape h).1] at hc
      simp at hc
  · have hnone := cubicSection_eq_none (r := r) (habs "cubic_attractor" (by simp [ruleFields]))
    rcases hs with h | h | h | h | h | h | h | h | h | h
    · rw [(headerSection_shape h).1] at hc
      simp at hc
    · rw [(arcSection_shape h).1] at hc
      simp at hc
    · rw [(heatSection_shape h).1] at hc
      simp at hc
    · rw [(langMotifsSection_shape h).1] at hc
      simp at hc
    · rw [(physSection_shape h).1] at hc
      simp at hc
    · rw [(visSection_shape h).1] at hc
      simp at hc
    · rw [(dynSection_shape h).1] at hc
      simp at hc
    · rw [(coreSection_shape h).1] at hc
      simp at hc
    · rw [hnone] at h
      exact Option.noConfusion h
    · rw [(exportSection_shape h).1] at hc
      simp at hc
  · have hnone := exportSection_eq_none (r := r) (by simpa [ruleFields] using habs)
    rcases hs with h | h | h | h | h | h | h | h | h | h
    · rw [(headerSection_shape h).1] at hc
      simp at hc
    · rw [(arcSection_shape h).1] at hc
      simp at hc
    · rw [(heatSection_shape h).1] at hc
      simp at hc
    · rw [(langMotifsSection_shape h).1] at hc
      simp at hc
    · rw [(physSection_shape h).1] at hc
      simp at hc
    · rw [(visSection_shape h).1] at hc
      simp at hc
    · rw [(dynSection_shape h).1] at hc
      simp at hc
    · rw [(coreSection_shape h).1] at hc
      simp at hc
    · rw [(cubicSection_shape h).1] at hc
      simp at hc
    · rw [hnone] at h
      exact Option.noConfusion h

theorem chunk_eq_sections_of_many {r : Record}
    (h : 1 < (chunk_single_kernel_sections r).length) :
    chunk_single_kernel r = chunk_single_kernel_sections r := by
  simp only [chunk_single_kernel]
  rw [if_pos (by omega)]

/-! ## Claim theorems -/

/-- C1 (counterexample): the claim says every Section's `title` is a
fixed per-tag label, the same for every input record.  The two
segmentable records `titledA` and `titledB` both produce a `header`
section, yet their header sections' `title` values differ (they are the
records' own `title` fields), so the header title is not fixed. -/
theorem C1_fixed_title_counterexample :
    1 < (chunk_single_kernel_sections titledA).length ∧
    1 < (chunk_single_kernel_sections titledB).length ∧
    (chunk_single_kernel titledA).headI ∈ chunk_single_kernel titledA ∧
    (chunk_single_kernel titledB).headI ∈ chunk_single_kernel titledB ∧
    lookup ((chunk_single_kernel titledA).headI) "section" = some (Value.str "header") ∧
    lookup ((chunk_single_kernel titledB).headI) "section" = some (Value.str "header") ∧
    lookup ((chunk_single_kernel titledA).headI) "title" ≠
      lookup ((chunk_single_kernel titledB).headI) "title" := by
  refine ⟨by decide, by decide, List.mem_cons_self _ _, List.mem_cons_self _ _, rfl, rfl, ?_⟩
  intro h
  rw [show lookup ((chunk_single_kernel titledA).headI) "title"
        = some (Value.str "Arrival") from rfl,
      show lookup ((chunk_single_kernel titledB).headI) "title"
        = some (Value.str "Departure") from rfl] at h
  injection h with h
  injection h with h
  exact absurd h (by decide)

/-- C1 (amended): when segmentation applies, every produced Section
carries `section` (a rule tag), `id` (the record's `id`, or `"unknown"`
when absent), and `title`; the title is the fixed per-tag label for every
tag except `header`, whose title is the record's own `title` value,
defaulting to `"Header"` (`tagTitle`). -/
theorem C1_section_fields (r s : Record)
    (hseg : 1 < (chunk_single_kernel_sections r).length)
    (hs : s ∈ chunk_single_kernel r) :
    ∃ t, t ∈ ruleTags ∧
      lookup s "section" = some (Value.str t) ∧
      lookup s "title" = some (tagTitle r t) ∧
      lookup s "id" = some (sectionId r) := by
  rw [chunk_eq_sections_of_many hseg] at hs
  exact mem_sections_shape hs

/-- C1 witness: the amended claim evaluated on the record
`{"id":"k1","heat_signature":{"trust":0.5}}` and the first produced
section. -/
theorem C1_section_fields_witness :
    ∃ t, t ∈ ruleTags ∧
      lookup ((chunk_single_kernel scenarioHeat).headI) "section" = some (Value.str t) ∧
      lookup ((chunk_single_kernel scenarioHeat).headI) "title"
        = some (tagTitle scenarioHeat t) ∧
      lookup ((chunk_single_kernel scenarioHeat).headI) "id"
        = some (sectionId scenarioHeat) :=
  C1_section_fields scenarioHeat _ (by decide) (List.mem_cons_self _ _)

/-- C2: if the ten extraction rules produce at most one section,
`chunk_single_kernel` returns the single-element list holding the
original record itself; otherwise it returns the produced section list,
which has length at least 2. -/
theorem C2_fallback_policy (r : Record) :
    ((chunk_single_kernel_sections r).length ≤ 1 → chunk_single_kernel r = [r]) ∧
    (1 < (chunk_single_kernel_sections r).length →
      chunk_single_kernel r = chunk_single_kernel_sections r ∧
      2 ≤ (chunk_single_kernel r).length) := by
  constructor
  · intro h
    simp only [chunk_single_kernel]
    rw [if_neg (by omega)]
  · intro h
    refine ⟨chunk_eq_sections_of_many h, ?_⟩
    rw [chunk_eq_sections_of_many h]
    omega

/-- C2 witness: the fallback on `{"id":"k1","title":"Solo"}` (one header
section only) and the segmentation on
`{"id":"k1","heat_signature":{"trust":0.5}}` (two sections). -/
theorem C2_fallback_policy_witness :
    chunk_single_kernel scenarioSolo = [scenarioSolo] ∧
    chunk_single_kernel scenarioHeat = chunk_single_kernel_sections scenarioHeat ∧
    2 ≤ (chunk_single_kernel scenarioHeat).length :=
  ⟨(C2_fallback_policy scenarioSolo).1 (by decide),
   ((C2_fallback_policy scenarioHeat).2 (by decide)).1,
   ((C2_fallback_policy scenarioHeat).2 (by decide)).2⟩

/-- C3: `id` is in the header rule's trigger set.  The record
`{"id":"k1","heat_signature":{"trust":0.5}}` segments into exactly the
header section (with `data = {"id":"k1"}`) followed by the
heat_signature section; and in general a record whose only header field
is `id` gets a header section whose `data` holds just the `id` entry. -/
theorem C3_id_triggers_header :
    (chunk_single_kernel scenarioHeat =
      [[("section", Value.str "header"), ("title", Value.str "Header"),
        ("id", Value.str "k1"), ("data", Value.obj [("id", Value.str "k1")])],
       [("section", Value.str "heat_signature"), ("title", Value.str "Heat Signature"),
        ("id", Value.str "k1"),
        ("heat_signature", Value.obj [("trust", Value.num (1/2))])]]) ∧
    (∀ (r : Record) (v : Value), lookup r "id" = some v →
      (∀ k ∈ headerKeys, k ≠ "id" → lookup r k = none) →
      headerSection r =
        some [("section", Value.str "header"), ("title", Value.str "Header"),
              ("id", v), ("data", Value.obj [("id", v)])]) := by
  refine ⟨rfl, ?_⟩
  intro r v hid habs
  have htitle : lookup r "title" = none := habs "title" (by decide) (by decide)
  have hver : lookup r "version" = none := habs "version" (by decide) (by decide)
  have hext : lookup r "extraction_date" = none := habs "extraction_date" (by decide) (by decide)
  have hsrc : lookup r "source" = none := habs "source" (by decide) (by decide)
  have hdeck : lookup r "deck_id" = none := habs "deck_id" (by decide) (by decide)
  have hcnt : lookup r "kernel_count" = none := habs "kernel_count" (by decide) (by decide)
  have hcmp : lookup r "compression_ratio" = none := habs "compression_ratio" (by decide) (by decide)
  have hc : collect headerKeys r = [("id", v)] := by
    simp [collect, headerKeys, hid, htitle, hver, hext, hsrc, hdeck, hcnt, hcmp]
  simp [headerSection, hc, getD, sectionId, htitle, hid]

/-- C3 witness: the general part evaluated on the record
`{"id":"z"}`, whose only header field is `id`. -/
theorem C3_id_triggers_header_witness :
    headerSection [("id", Value.str "z")] =
      some [("section", Value.str "header"), ("title", Value.str "Header"),
            ("id", Value.str "z"), ("data", Value.obj [("id", Value.str "z")])] :=
  C3_id_triggers_header.2 [("id", Value.str "z")] (Value.str "z") rfl (by
    intro k hk hne
    simp only [headerKeys, List.mem_cons, List.not_mem_nil, or_false] at hk
    rcases hk with rfl | rfl | rfl | rfl | rfl | rfl | rfl | rfl
    · exact absurd rfl hne
    all_goals rfl)

/-- C4: the produced sections' tags always follow the fixed 10-rule
order (their tag list is a sublist of the fixed tag list); the produced
sections depend only on key lookups, not on the record's key order; and
a rule whose trigger fields are all absent contributes no section. -/
theorem C4_order_and_skipping :
    (∀ r : Record, 1 < (chunk_single_kernel_sections r).length →
      ((chunk_single_kernel r).map (fun s => lookup s "section")).Sublist
        (ruleTags.map (fun t => some (Value.str t)))) ∧
    (∀ r1 r2 : Record, (∀ k, lookup r1 k = lookup r2 k) →
      chunk_single_kernel_sections r1 = chunk_single_kernel_sections r2) ∧
    (∀ (r : Record) (t : String), t ∈ ruleTags →
      (∀ k ∈ ruleFields t, lookup r k = none) →
      ∀ s ∈ chunk_single_kernel_sections r, lookup s "section" ≠ some (Value.str t)) := by
  refine ⟨?_, ?_, ?_⟩
  · intro r h
    rw [chunk_eq_sections_of_many h]
    exact sections_tags_sublist r
  · intro r1 r2 h
    exact sections_congr h
  · intro r t ht habs
    exact rule_absent_tag_not_present ht habs

/-- C4 witness: order on the segmented scenario record; key-order
independence between a record and its key-reversed copy; and the absence
part for the `export` rule on that record. -/
theorem C4_order_and_skipping_witness :
    ((chunk_single_kernel scenarioHeat).map (fun s => lookup s "section")).Sublist
      (ruleTags.map (fun t => some (Value.str t))) ∧
    chunk_single_kernel_sections
        [("heat_signature", Value.obj [("trust", Value.num (1/2))]), ("id", Value.str "k1")] =
      chunk_single_kernel_sections scenarioHeat ∧
    ∀ s ∈ chunk_single_kernel_sections scenarioHeat,
      lookup s "section" ≠ some (Value.str "export") :=
  ⟨C4_order_and_skipping.1 scenarioHeat (by decide),
   C4_order_and_skipping.2.1 _ scenarioHeat (by
    intro k
    simp only [scenarioHeat, lookup_cons]
    by_cases h1 : "heat_signature" = k
    · rcases h1 with rfl
      simp
    · by_cases h2 : "id" = k
      · rcases h2 with rfl
        simp [h1]
      · simp [h1, h2]),
   C4_order_and_skipping.2.2 scenarioHeat "export" (by decide) (by
    intro k hk
    simp only [ruleFields, List.mem_cons, List.not_mem_nil, or_false] at hk
    rcases hk with rfl | rfl | rfl | rfl | rfl
    all_goals rfl)⟩

/-- C5: a decoded mapping without `kernels` that lacks `id` or contains
none of `emotional_arc` / `heat_signature` / `cubic_attractor` is
rejected with the "No kernels found in JSON" status and the chunk state
is untouched — the document is never segmented into a chunk sequence. -/
theorem C5_unrecognized_shape (fields : Record) (st : ChunkerState)
    (hk : lookup fields "kernels" = none)
    (hsig : lookup fields "id" = none ∨
      (lookup fields "emotional_arc" = none ∧ lookup fields "heat_signature" = none ∧
        lookup fields "cubic_attractor" = none)) :
    processDecoded (Value.obj fields) st = some (st, Status.noKernelsInJson) := by
  have hcond : ¬ ((lookup fields "id").isSome ∧
      ((lookup fields "emotional_arc").isSome ∨ (lookup fields "heat_signature").isSome ∨
        (lookup fields "cubic_attractor").isSome)) := by
    rintro ⟨hid, harc⟩
    rcases hsig with h | ⟨h1, h2, h3⟩
    · rw [h] at hid
      simp at hid
    · rcases harc with ha | ha | ha
      · rw [h1] at ha
        simp at ha
      · rw [h2] at ha
        simp at ha
      · rw [h3] at ha
        simp at ha
  simp only [processDecoded, hk]
  rw [if_neg hcond]

/-- C5 witness: the §8 scenario `{"id":"k1","title":"Solo"}` is rejected
with the chunk state untouched. -/
theorem C5_unrecognized_shape_witness :
    processDecoded (Value.obj scenarioSolo) ⟨[], 0⟩
      = some (⟨[], 0⟩, Status.noKernelsInJson) :=
  C5_unrecognized_shape scenarioSolo ⟨[], 0⟩ rfl (Or.inr ⟨rfl, rfl, rfl⟩)

/-- C10: the produced section list has pairwise-distinct tags (hence at
most one section per tag) and `chunk_single_kernel` returns at most 10
chunks; when segmentation applies, the returned sections have
pairwise-distinct tags and all carry the same `id` (the record's `id`,
or `"unknown"`). -/
theorem C10_distinct_tags_same_id (r : Record) :
    ((chunk_single_kernel_sections r).map (fun s => lookup s "section")).Nodup ∧
    (chunk_single_kernel r).length ≤ 10 ∧
    (1 < (chunk_single_kernel_sections r).length →
      ((chunk_single_kernel r).map (fun s => lookup s "section")).Nodup ∧
      ∀ s ∈ chunk_single_kernel r, lookup s "id" = some (sectionId r)) := by
  have hbase : (ruleTags.map (fun t => some (Value.str t))).Nodup := by
    refine List.Nodup.map ?_ (by decide)
    intro a b h
    injection h with h
    injection h with h
  have hnodup : ((chunk_single_kernel_sections r).map (fun s => lookup s "section")).Nodup :=
    (sections_tags_sublist r).nodup hbase
  refine ⟨hnodup, ?_, ?_⟩
  · have h10 : (chunk_single_kernel_sections r).length ≤ 10 := by
      have hle := List.length_filterMap_le (id : Option Record → Option Record)
        [headerSection r, arcSection r, heatSection r, langMotifsSection r,
         physSection r, visSection r, dynSection r, coreSection r,
         cubicSection r, exportSection r]
      simpa [chunk_single_kernel_sections] using hle
    simp only [chunk_single_kernel]
    split
    · exact h10
    · simp
  · intro h
    rw [chunk_eq_sections_of_many h]
    refine ⟨hnodup, ?_⟩
    intro s hs
    exact (mem_sections_shape hs).choose_spec.2.2.2

/-- C10 witness: evaluated on the segmented scenario record. -/
theorem C10_distinct_tags_same_id_witness :
    ((chunk_single_kernel scenarioHeat).map (fun s => lookup s "section")).Nodup ∧
    ∀ s ∈ chunk_single_kernel scenarioHeat,
      lookup s "id" = some (sectionId scenarioHeat) :=
  (C10_distinct_tags_same_id scenarioHeat).2.2 (by decide)

theorem isEmpty_false_of_length_pos {α : Type} {l : List α} (h : 0 < l.length) :
    l.isEmpty = false := by
  cases l
  · simp at h
  · rfl

/-- C6 (counterexample): the claim asserts that from the exhausted state
(cursor = N) the advance resets and the immediately following advance
copies chunk[0]; at the empty chunk sequence (N = 0) the following
advance copies nothing, since there is no chunk[0]. -/
theorem C6_advance_counterexample :
    ¬ (∀ st : ChunkerState, st.cursor = (st.chunks.length : Int) →
        copy_next_chunk st = some (⟨st.chunks, 0⟩, none) ∧
        ∃ c, st.chunks.get? 0 = some c ∧
          (copy_next_chunk ⟨st.chunks, 0⟩).map Prod.snd = some (some c)) := by
  intro h
  obtain ⟨-, c, hc, -⟩ := h ⟨[], 0⟩ rfl
  exact Option.noConfusion hc

/-- C6 (amended): in a state with cursor ∈ [0, N], when cursor < N the
advance copies the chunk at the cursor and increments the cursor; when
cursor = N it resets the cursor to 0 and copies nothing, and — when the
chunk sequence is nonempty (N ≥ 1) — the immediately following advance
copies chunk[0]. -/
theorem C6_sequential_copy (st : ChunkerState) (hinv : InvState st) :
    (st.cursor < (st.chunks.length : Int) →
      ∃ c, st.chunks.get? st.cursor.toNat = some c ∧
        copy_next_chunk st = some (⟨st.chunks, st.cursor + 1⟩, some c)) ∧
    (st.cursor = (st.chunks.length : Int) →
      copy_next_chunk st = some (⟨st.chunks, 0⟩, none) ∧
      (st.chunks ≠ [] →
        ∃ c, st.chunks.get? 0 = some c ∧
          copy_next_chunk ⟨st.chunks, 0⟩ = some (⟨st.chunks, 1⟩, some c))) := by
  obtain ⟨h0, hN⟩ := hinv
  constructor
  · intro hlt
    have htn : st.cursor.toNat < st.chunks.length := by omega
    obtain ⟨c, hc⟩ : ∃ c, st.chunks.get? st.cursor.toNat = some c := by
      rw [List.get?_eq_get htn]
      exact ⟨_, rfl⟩
    refine ⟨c, hc, ?_⟩
    have hpg : pyListGet st.chunks st.cursor = some c := by
      unfold pyListGet
      rw [if_pos h0]
      exact hc
    unfold copy_next_chunk
    rw [if_neg (by omega),
        if_neg (by simp [isEmpty_false_of_length_pos (show 0 < st.chunks.length by omega)]),
        hpg]
  · intro heq
    constructor
    · unfold copy_next_chunk
      rw [if_pos (by omega)]
    · intro hne
      have hpos : 0 < st.chunks.length := List.length_pos.mpr hne
      obtain ⟨c, hc⟩ : ∃ c, st.chunks.get? 0 = some c := by
        rw [List.get?_eq_get hpos]
        exact ⟨_, rfl⟩
      refine ⟨c, hc, ?_⟩
      have hpg : pyListGet st.chunks 0 = some c := by
        unfold pyListGet
        rw [if_pos (by omega)]
        exact hc
      unfold copy_next_chunk
      dsimp only
      rw [if_neg (by omega),
          if_neg (by simp [isEmpty_false_of_length_pos hpos]),
          hpg]
      rfl

/-- C6 witness: the amended claim evaluated on the one-chunk states
`⟨[null], 0⟩` (ready) and `⟨[null], 1⟩` (exhausted). -/
theorem C6_sequential_copy_witness :
    (∃ c, ([Value.null] : List Value).get? ((0 : Int)).toNat = some c ∧
      copy_next_chunk ⟨[Value.null], 0⟩ = some (⟨[Value.null], 0 + 1⟩, some c)) ∧
    (copy_next_chunk ⟨[Value.null], 1⟩ = some (⟨[Value.null], 0⟩, none) ∧
      (([Value.null] : List Value) ≠ [] →
        ∃ c, ([Value.null] : List Value).get? 0 = some c ∧
          copy_next_chunk ⟨[Value.null], 0⟩ = some (⟨[Value.null], 1⟩, some c))) :=
  ⟨(C6_sequential_copy ⟨[Value.null], 0⟩ ⟨by decide, by decide⟩).1 (by decide),
   (C6_sequential_copy ⟨[Value.null], 1⟩ ⟨by decide, by decide⟩).2 rfl⟩

/-- C7: parse failure is atomic: a blank input reports the no-input
status, malformed text reports the decode-error status, and every parse
action that ends in a failure status leaves the chunk state exactly as
it was. -/
theorem C7_failure_atomic :
    (∀ st, process_chunks RawInput.blank st = some (st, Status.noInput)) ∧
    (∀ st, process_chunks RawInput.malformed st = some (st, Status.invalidJson)) ∧
    (∀ inp st st1 status, process_chunks inp st = some (st1, status) →
      status.isFailure = true → st1 = st) := by
  refine ⟨fun st => rfl, fun st => rfl, ?_⟩
  intro inp st st1 status h hf
  cases inp with
  | blank =>
    simp only [process_chunks] at h
    injection h with h
    injection h with h1 h2
    exact h1.symm
  | malformed =>
    simp only [process_chunks] at h
    injection h with h
    injection h with h1 h2
    exact h1.symm
  | decoded v =>
    simp only [process_chunks, processDecoded] at h
    repeat' split at h
    all_goals try exact Option.noConfusion h
    all_goals
      injection h with h
    all_goals
      injection h with h1 h2
    all_goals
      first
        | exact h1.symm
        | (rw [← h2] at hf
           simp [Status.isFailure] at hf)

/-- C7 witness: malformed text on a nonempty chunk state leaves it
untouched. -/
theorem C7_failure_atomic_witness :
    process_chunks RawInput.malformed ⟨[Value.null], 1⟩
      = some (⟨[Value.null], 1⟩, Status.invalidJson) ∧
    (⟨[Value.null], 1⟩ : ChunkerState) = ⟨[Value.null], 1⟩ :=
  ⟨C7_failure_atomic.2.1 ⟨[Value.null], 1⟩,
   C7_failure_atomic.2.2 RawInput.malformed ⟨[Value.null], 1⟩ ⟨[Value.null], 1⟩
     Status.invalidJson (C7_failure_atomic.2.1 ⟨[Value.null], 1⟩) rfl⟩

/-- C8: the invariant 0 ≤ cursor ≤ N is preserved by every operation:
parsing (every defined outcome of `process_chunks`), advancing the
sequential copy, and clearing. -/
theorem C8_cursor_invariant (st : ChunkerState) (hinv : InvState st) :
    (∀ inp st1 status, process_chunks inp st = some (st1, status) → InvState st1) ∧
    (∀ st1 copied, copy_next_chunk st = some (st1, copied) → InvState st1) ∧
    InvState (clear_all st) := by
  obtain ⟨h0, hN⟩ := hinv
  refine ⟨?_, ?_, by simp [InvState, clear_all]⟩
  · intro inp st1 status h
    cases inp with
    | blank =>
      simp only [process_chunks] at h
      injection h with h
      injection h with h1 h2
      rw [← h1]
      exact ⟨h0, hN⟩
    | malformed =>
      simp only [process_chunks] at h
      injection h with h
      injection h with h1 h2
      rw [← h1]
      exact ⟨h0, hN⟩
    | decoded v =>
      simp only [process_chunks, processDecoded] at h
      repeat' split at h
      all_goals try exact Option.noConfusion h
      all_goals
        injection h with h
      all_goals
        injection h with h1 h2
      all_goals
        rw [← h1]
      all_goals
        first
          | exact ⟨h0, hN⟩
          | (refine ⟨?_, ?_⟩ <;> dsimp only <;> omega)
  · intro st1 copied h
    unfold copy_next_chunk at h
    repeat' split at h
    all_goals try exact Option.noConfusion h
    all_goals
      injection h with h
    all_goals
      injection h with h1 h2
    all_goals
      rw [← h1]
    all_goals
      refine ⟨?_, ?_⟩ <;> dsimp only <;> omega

/-- C8 witness: the invariant checked through a concrete advance from
the ready one-chunk state, and through a clear. -/
theorem C8_cursor_invariant_witness :
    (∀ st1 copied, copy_next_chunk ⟨[Value.null], 0⟩ = some (st1, copied) → InvState st1) ∧
    InvState (clear_all ⟨[Value.null], 0⟩) :=
  ⟨(C8_cursor_invariant ⟨[Value.null], 0⟩ ⟨by decide, by decide⟩).2.1,
   (C8_cursor_invariant ⟨[Value.null], 0⟩ ⟨by decide, by decide⟩).2.2⟩

theorem collectS_eq (keys : List String) (d : Record) :
    collectS keys d = (d, collect keys d) := by
  induction keys with
  | nil => rfl
  | cons k ks ih =>
    rcases h : lookup d k with _ | v <;>
      simp [collectS, memS, itemS, collect, List.filterMap_cons, h, ih]

theorem headerSectionS_eq (d : Record) : headerSectionS d = (d, headerSection d) := by
  simp only [headerSectionS, collectS_eq, getS, headerSection]
  split <;> simp [sectionId]

theorem arcSectionS_eq (d : Record) :
    singleFieldSectionS "emotional_arc" "Emotional Arc" "emotional_arc" d
      = (d, arcSection d) := by
  simp only [singleFieldSectionS, memS, getS, itemS, arcSection]
  rcases h : lookup d "emotional_arc" with _ | v <;> simp [h, sectionId]

theorem heatSectionS_eq (d : Record) :
    singleFieldSectionS "heat_signature" "Heat Signature" "heat_signature" d
      = (d, heatSection d) := by
  simp only [singleFieldSectionS, memS, getS, itemS, heatSection]
  rcases h : lookup d "heat_signature" with _ | v <;> simp [h, sectionId]

theorem langMotifsSectionS_eq (d : Record) :
    spreadSectionS "language_motifs" "Language & Motifs"
        ["language_patterns", "motifs"] d
      = (d, langMotifsSection d) := by
  simp only [spreadSectionS, collectS_eq, getS, langMotifsSection]
  split <;> simp [sectionId]

theorem physSectionS_eq (d : Record) :
    singleFieldSectionS "physical_anchors" "Physical Anchors" "physical_anchors" d
      = (d, physSection d) := by
  simp only [singleFieldSectionS, memS, getS, itemS, physSection]
  rcases h : lookup d "physical_anchors" with _ | v <;> simp [h, sectionId]

theorem visSectionS_eq (d : Record) :
    singleFieldSectionS "visual_description" "Visual Description" "visual_description" d
      = (d, visSection d) := by
  simp only [singleFieldSectionS, memS, getS, itemS, visSection]
  rcases h : lookup d "visual_description" with _ | v <;> simp [h, sectionId]

theorem dynSectionS_eq (d : Record) :
    spreadSectionS "dynamics" "Relationship Dynamics"
        ["consent_pattern", "power_dynamic", "aftercare"] d
      = (d, dynSection d) := by
  simp only [spreadSectionS, collectS_eq, getS, dynSection]
  split <;> simp [sectionId]

theorem coreSectionS_eq (d : Record) :
    spreadSectionS "core_truth" "Core Truth & Boundaries"
        ["pattern_boundaries", "what_makes_it_work", "core_truth", "why_it_matters"] d
      = (d, coreSection d) := by
  simp only [spreadSectionS, collectS_eq, getS, coreSection]
  split <;> simp [sectionId]

theorem cubicSectionS_eq (d : Record) :
    singleFieldSectionS "cubic_attractor" "Cubic Attractor (Identity)" "cubic_attractor" d
      = (d, cubicSection d) := by
  simp only [singleFieldSectionS, memS, getS, itemS, cubicSection]
  rcases h : lookup d "cubic_attractor" with _ | v <;> simp [h, sectionId]

theorem exportSectionS_eq (d : Record) :
    spreadSectionS "export" "Export Notes"
        ["replication_notes", "export_notes", "closing_image", "heat_at_close", "sigil"] d
      = (d, exportSection d) := by
  simp only [spreadSectionS, collectS_eq, getS, exportSection]
  split <;> simp [sectionId]

/-- C9: the segmenter never mutates its input record.  In the
state-threaded embedding, where every operation the source performs on
`kernel` goes through the record's dict state, the final state equals
the initial record (so every read-built section is new and the record is
returned unchanged, also in the fallback case where the record itself is
the sole chunk), and the result refines the pure `chunk_single_kernel`. -/
theorem C9_segment_preserves_record (kernel : Record) :
    chunk_single_kernel_state kernel = (kernel, chunk_single_kernel kernel) := by
  simp only [chunk_single_kernel_state, headerSectionS_eq, arcSectionS_eq, heatSectionS_eq,
    langMotifsSectionS_eq, physSectionS_eq, visSectionS_eq, dynSectionS_eq, coreSectionS_eq,
    cubicSectionS_eq, exportSectionS_eq, chunk_single_kernel, chunk_single_kernel_sections]
  split <;> rfl
